import Mathlib

/-!
Verification of the command-construction and result-interpretation layer of
the `taskscheduler` repository (`src/taskscheduler/core.py`), as a shallow
embedding in Lean.  Pure string-building functions are translated directly;
the stateful task operations (`create`, `delete`, `run`, `enable`, `disable`,
`stop`, `exists`) are modelled as explicit state passing over an abstract
host scheduler, with every issued PowerShell invocation recorded in a trace.
Strings are modelled over their character lists; the ASCII fragment of
Python's `str.lower`/`str.isdigit` is used, matching the scheduler-output
domain these functions consume.
-/

namespace TaskSched

/-- Character-list view of string concatenation. -/
theorem data_append (a b : String) : (a ++ b).data = a.data ++ b.data := by
  cases a; cases b; rfl

/-- Embedding of `value.replace('"', '""')` from `_quote_ps_arg`
(`core.py` line 31): a single-character needle makes `str.replace`
character-wise, doubling every double quote. -/
def escQuote : List Char → List Char
  | [] => []
  | c :: cs => if c = '"' then '"' :: '"' :: escQuote cs else c :: escQuote cs

/-- Embedding of `_quote_ps_arg` (`core.py` lines 29-31):
`'"' + value.replace('"', '""') + '"'`. -/
def _quote_ps_arg (s : String) : String :=
  "\"" ++ String.mk (escQuote s.data) ++ "\""

/-- Inverse direction of the quoting rule, as the spec states it:
collapse each doubled double quote back to a single one. -/
def collapseQuote : List Char → List Char
  | [] => []
  | [c] => [c]
  | c :: d :: rest =>
      if c = '"' ∧ d = '"' then '"' :: collapseQuote rest
      else c :: collapseQuote (d :: rest)

/-- Inverse of the quoting rule on character lists: strip the outer double
quotes, then collapse doubled quotes; `none` when the input is not of the
quoted shape. -/
def unquotePsList : List Char → Option (List Char)
  | '"' :: rest =>
      match rest.getLast? with
      | some '"' => some (collapseQuote rest.dropLast)
      | _ => none
  | _ => none

/-- Inverse of `_quote_ps_arg`, per the spec's round-trip property. -/
def unquotePsArg (s : String) : Option String :=
  (unquotePsList s.data).map String.mk

theorem escQuote_eq_nil {l : List Char} (h : escQuote l = []) : l = [] := by
  cases l with
  | nil => rfl
  | cons c cs =>
      simp only [escQuote] at h
      split at h <;> simp_all

theorem collapseQuote_escQuote (l : List Char) :
    collapseQuote (escQuote l) = l := by
  induction l with
  | nil => rfl
  | cons c cs ih =>
      by_cases hc : c = '"'
      · subst hc
        simp [escQuote, collapseQuote, ih]
      · simp only [escQuote, if_neg hc]
        cases h : escQuote cs with
        | nil =>
            have hcs : cs = [] := escQuote_eq_nil h
            subst hcs
            rfl
        | cons d rest =>
            simp only [collapseQuote]
            rw [if_neg (fun hb : c = '"' ∧ d = '"' => hc hb.1), ← h, ih]

theorem _quote_ps_arg_data (s : String) :
    (_quote_ps_arg s).data = '"' :: (escQuote s.data ++ ['"']) := by
  cases s with
  | mk l => rfl

/-- C5 — Quoting round-trip and injectivity: unquoting the quoted form of any
string (including ones with embedded double quotes, spaces or semicolons)
recovers the string exactly, and the quoting function is injective. -/
theorem c5_quote_roundtrip (s t : String) :
    unquotePsArg (_quote_ps_arg s) = some s ∧
    (_quote_ps_arg s = _quote_ps_arg t → s = t) := by
  have round : ∀ u : String, unquotePsArg (_quote_ps_arg u) = some u := by
    intro u
    unfold unquotePsArg
    rw [_quote_ps_arg_data]
    simp only [unquotePsList, List.getLast?_concat]
    rw [List.dropLast_concat, collapseQuote_escQuote]
    cases u with
    | mk l => rfl
  refine ⟨round s, fun h => ?_⟩
  have h2 : unquotePsArg (_quote_ps_arg s) = unquotePsArg (_quote_ps_arg t) := by
    rw [h]
  rw [round s, round t] at h2
  exact Option.some.inj h2

/-- Witness for C5 at a string containing a double quote, spaces and a
semicolon. -/
theorem c5_quote_roundtrip_witness :
    unquotePsArg (_quote_ps_arg "a\"b c;d") = some "a\"b c;d" ∧
    "a\"b c;d" = "a\"b c;d" :=
  ⟨(c5_quote_roundtrip "a\"b c;d" "a\"b c;d").1,
   (c5_quote_roundtrip "a\"b c;d" "a\"b c;d").2 rfl⟩

/-- Time of day, the value of `datetime.time(hour, minute)`. -/
structure TimeOfDay where
  hour : Nat
  minute : Nat
deriving DecidableEq

/-- Calendar date, the value of `datetime.date(year, month, day)`. -/
structure DateV where
  year : Nat
  month : Nat
  day : Nat
deriving DecidableEq

/-- The `at` field of `PythonTask`: either a `datetime.time` or a raw string
(`at: Union[str, time]`, `core.py` line 69). -/
inductive AtField where
  | tod (t : TimeOfDay)
  | raw (s : String)
deriving DecidableEq

/-- The `on` field of `PythonTask`
(`on: Optional[Union[date, Iterable[str]]]`, `core.py` line 70), modelled as
absent, a date, or a list of weekday-name strings. -/
inductive OnField where
  | noneF
  | onDate (d : DateV)
  | onDays (ds : List String)
deriving DecidableEq

/-- Embedding of the `PythonTask` dataclass (`core.py` lines 46-73).
`frequency` is a plain string because Python's `Literal` annotation is not
enforced at run time.  `script` and `python` hold the already-resolved path
strings (`_to_path_str` resolves against the file system, which is
environment state outside the command-construction layer); `at_` stands for
the source's `at` field, a Lean keyword. -/
structure PythonTask where
  name : String
  script : String
  python : String
  args : List String
  frequency : String
  at_ : AtField
  on_ : OnField
  description : String
  user : Option String
  password : Option String

/-- Two-digit zero padding, as in `strftime` fields `%H`, `%M`, `%m`, `%d`. -/
def pad2 (n : Nat) : String :=
  if n < 10 then "0" ++ toString n else toString n

/-- Four-digit zero padding for `strftime` field `%Y`. -/
def pad4 (n : Nat) : String :=
  if n < 10 then "000" ++ toString n
  else if n < 100 then "00" ++ toString n
  else if n < 1000 then "0" ++ toString n
  else toString n

/-- Rendering of `t.strftime("%H:%M")`. -/
def formatTime (t : TimeOfDay) : String :=
  pad2 t.hour ++ ":" ++ pad2 t.minute

/-- Rendering of `d.strftime("%Y-%m-%d")`. -/
def formatDate (d : DateV) : String :=
  pad4 d.year ++ "-" ++ pad2 d.month ++ "-" ++ pad2 d.day

/-- The `at_str` normalisation at the top of `_build_trigger`
(`core.py` lines 92-95): a `time` is rendered `HH:MM`, anything else is
`str(self.at)`. -/
def atString (sp : PythonTask) : String :=
  match sp.at_ with
  | .tod t => formatTime t
  | .raw s => s

/-- Embedding of Python's `sep.join(parts)`. -/
def joinWith (sep : String) : List String → String
  | [] => ""
  | [x] => x
  | x :: y :: xs => x ++ sep ++ joinWith sep (y :: xs)

/-- The day-list computation of the `Weekly` branch of `_build_trigger`
(`core.py` lines 110-116): join the supplied day names with commas; when the
`on` field is absent, not a day list, or joins to the empty string, fall back
to the current weekday name (`datetime.now().strftime("%A")`, passed here as
`nowWeekday`). -/
def weeklyDaysValue (sp : PythonTask) (nowWeekday : String) : String :=
  let days0 : Option String :=
    match sp.on_ with
    | .onDays l => if l.isEmpty then none else some (joinWith "," l)
    | _ => none
  match days0 with
  | some dstr => if dstr.isEmpty then nowWeekday else dstr
  | none => nowWeekday

/-- Embedding of `PythonTask._build_trigger` (`core.py` lines 90-121).
The ambient `datetime.now()` is passed explicitly as `nowDate` (its date) and
`nowWeekday` (its `%A` weekday name).  Note the final branch is a catch-all:
any frequency other than `"Once"` and `"Weekly"` renders the `-Daily`
fragment. -/
def _build_trigger (sp : PythonTask) (nowDate : DateV) (nowWeekday : String) : String :=
  let at_str := atString sp
  if sp.frequency = "Once" then
    let run_date := match sp.on_ with | .onDate dd => dd | _ => nowDate
    let dt_str := formatDate run_date ++ " " ++ at_str
    "$trigger = New-ScheduledTaskTrigger -Once -At (Get-Date " ++ _quote_ps_arg dt_str ++ ")"
  else if sp.frequency = "Weekly" then
    "$trigger = New-ScheduledTaskTrigger -Weekly -DaysOfWeek " ++ weeklyDaysValue sp nowWeekday
      ++ " -At " ++ at_str
  else
    "$trigger = New-ScheduledTaskTrigger -Daily -At " ++ at_str

/-- Embedding of `PythonTask._build_action` (`core.py` lines 75-88): quote
the executable, then the script path and every extra argument, the latter
joined by single spaces into the `-Argument` value. -/
def _build_action (sp : PythonTask) : String :=
  "$action = New-ScheduledTaskAction -Execute " ++ _quote_ps_arg sp.python
    ++ " -Argument " ++ joinWith " " ((sp.script :: sp.args).map _quote_ps_arg)

/-- Python truthiness of an `Optional[str]`: `None` and `""` are falsy. -/
def truthyOpt : Option String → Bool
  | none => false
  | some s => decide (s ≠ "")

/-- The `base` prefix built at the top of `PythonTask._build_register`
(`core.py` lines 124-129). -/
def registerBase (sp : PythonTask) (nowDate : DateV) (nowWeekday : String) : String :=
  "$description = " ++ _quote_ps_arg sp.description
    ++ "; $taskName = " ++ _quote_ps_arg sp.name
    ++ "; " ++ _build_action sp
    ++ "; " ++ _build_trigger sp nowDate nowWeekday
    ++ "; "

/-- The three-way credential branch of `PythonTask._build_register`
(`core.py` lines 131-151): user and password when both are truthy, user only
when only the user is truthy, no credentials otherwise. -/
def registerSuffix (sp : PythonTask) : String :=
  if truthyOpt sp.user && truthyOpt sp.password then
    "Register-ScheduledTask -TaskName $taskName -Description $description -Action $action -Trigger $trigger -User "
      ++ _quote_ps_arg (sp.user.getD "") ++ " -Password " ++ _quote_ps_arg (sp.password.getD "")
      ++ " | Out-Null"
  else if truthyOpt sp.user then
    "Register-ScheduledTask -TaskName $taskName -Description $description -Action $action -Trigger $trigger -User "
      ++ _quote_ps_arg (sp.user.getD "") ++ " | Out-Null"
  else
    "Register-ScheduledTask -TaskName $taskName -Description $description -Action $action -Trigger $trigger | Out-Null"

/-- Embedding of `PythonTask._build_register` (`core.py` lines 123-151): the
base prefix followed by the credential branch. -/
def _build_register (sp : PythonTask) (nowDate : DateV) (nowWeekday : String) : String :=
  registerBase sp nowDate nowWeekday ++ registerSuffix sp

theorem strAppend_assoc (a b c : String) : a ++ b ++ c = a ++ (b ++ c) := by
  cases a; cases b; cases c
  exact congrArg String.mk (List.append_assoc _ _ _)

/-- The string `n` occurs contiguously inside the string `h`. -/
def strHas (h n : String) : Prop :=
  ∃ u v : List Char, h.data = u ++ (n.data ++ v)

theorem strHas_self (n : String) : strHas n n :=
  ⟨[], [], by simp⟩

theorem strHas_left (x : String) {h n : String} (hh : strHas h n) :
    strHas (x ++ h) n := by
  obtain ⟨u, v, e⟩ := hh
  exact ⟨x.data ++ u, v, by simp [data_append, e]⟩

theorem strHas_right (y : String) {h n : String} (hh : strHas h n) :
    strHas (h ++ y) n := by
  obtain ⟨u, v, e⟩ := hh
  exact ⟨u, v ++ y.data, by simp [data_append, e]⟩

theorem strHas_join (sep : String) :
    ∀ (l : List String) (x : String), x ∈ l → strHas (joinWith sep l) x := by
  intro l
  induction l with
  | nil => intro x hx; cases hx
  | cons y ys ih =>
      intro x hx
      rcases List.mem_cons.mp hx with rfl | hmem
      · cases ys with
        | nil => exact strHas_self x
        | cons z zs => exact strHas_right _ (strHas_right _ (strHas_self x))
      · cases ys with
        | nil => cases hmem
        | cons z zs => exact strHas_left _ (ih x hmem)

/-- Concrete spec whose trigger fragment exposes the unquoted time value. -/
def cexDailySpec : PythonTask :=
  ⟨"t", "s", "p", [], "Daily", .raw "12:30", .noneF, "d", none, none⟩

/-- Reference date and weekday standing for `datetime.now()` in concrete
evaluations. -/
def d0 : DateV := ⟨2024, 5, 7⟩

/-- C1 counterexample — the rendered `Daily` trigger fragment interpolates
the `at` time value bare: the fragment contains no double quote at all, so
the interpolated value is not wrapped in double quotes, contradicting the
claim that every interpolated value in every fragment is quoted. -/
theorem c1_trigger_unquoted_cex :
    _build_trigger cexDailySpec d0 "Tuesday" =
      "$trigger = New-ScheduledTaskTrigger -Daily -At 12:30" ∧
    '"' ∉ (_build_trigger cexDailySpec d0 "Tuesday").data := by
  exact ⟨rfl, by decide⟩

/-- C1 amended — the quoting rule is applied to every value interpolated into
the action fragment (executable, script, each extra argument) and into the
registration fragment (description, task name, user when truthy, and the
password when both credentials are truthy), and to the date-time of the
`Once` trigger; but the `Weekly` and `Daily` trigger fragments interpolate
the day list and the `at` time without quoting. -/
theorem c1_quoting_amended (sp : PythonTask) (d : DateV) (w : String) :
    strHas (_build_action sp) (_quote_ps_arg sp.python) ∧
    strHas (_build_action sp) (_quote_ps_arg sp.script) ∧
    (∀ a ∈ sp.args, strHas (_build_action sp) (_quote_ps_arg a)) ∧
    strHas (_build_register sp d w) (_quote_ps_arg sp.name) ∧
    strHas (_build_register sp d w) (_quote_ps_arg sp.description) ∧
    (∀ u, sp.user = some u → u ≠ "" → strHas (_build_register sp d w) (_quote_ps_arg u)) ∧
    (∀ u p, sp.user = some u → u ≠ "" → sp.password = some p → p ≠ "" →
      strHas (_build_register sp d w) (_quote_ps_arg p)) ∧
    (sp.frequency = "Once" →
      ∃ dt, _build_trigger sp d w =
        "$trigger = New-ScheduledTaskTrigger -Once -At (Get-Date " ++ _quote_ps_arg dt ++ ")") ∧
    (sp.frequency = "Weekly" →
      _build_trigger sp d w =
        "$trigger = New-ScheduledTaskTrigger -Weekly -DaysOfWeek " ++ weeklyDaysValue sp w
          ++ " -At " ++ atString sp) ∧
    (sp.frequency ≠ "Once" → sp.frequency ≠ "Weekly" →
      _build_trigger sp d w = "$trigger = New-ScheduledTaskTrigger -Daily -At " ++ atString sp) := by
  have hact_py : strHas (_build_action sp) (_quote_ps_arg sp.python) :=
    strHas_right _ (strHas_right _ (strHas_left _ (strHas_self _)))
  have hjoin : ∀ a ∈ sp.script :: sp.args,
      strHas (_build_action sp) (_quote_ps_arg a) := by
    intro a ha
    exact strHas_left _
      (strHas_join " " ((sp.script :: sp.args).map _quote_ps_arg) (_quote_ps_arg a)
        (List.mem_map_of_mem _quote_ps_arg ha))
  have hbase_name : strHas (registerBase sp d w) (_quote_ps_arg sp.name) :=
    strHas_right _ (strHas_right _ (strHas_right _ (strHas_right _ (strHas_right _
      (strHas_left _ (strHas_self _))))))
  have hbase_desc : strHas (registerBase sp d w) (_quote_ps_arg sp.description) :=
    strHas_right _ (strHas_right _ (strHas_right _ (strHas_right _ (strHas_right _
      (strHas_right _ (strHas_right _ (strHas_left _ (strHas_self _))))))))
  refine ⟨hact_py, hjoin sp.script (by simp), fun a ha => hjoin a (by simp [ha]),
    strHas_right _ hbase_name, strHas_right _ hbase_desc, ?_, ?_, ?_, ?_, ?_⟩
  · intro u hu hne
    have htu : truthyOpt sp.user = true := by simp [truthyOpt, hu, hne]
    have hget : sp.user.getD "" = u := by rw [hu]; rfl
    refine strHas_left (registerBase sp d w) ?_
    cases hp : truthyOpt sp.password with
    | true =>
        have : registerSuffix sp =
            "Register-ScheduledTask -TaskName $taskName -Description $description -Action $action -Trigger $trigger -User "
              ++ _quote_ps_arg u ++ " -Password " ++ _quote_ps_arg (sp.password.getD "")
              ++ " | Out-Null" := by
          simp [registerSuffix, htu, hp, hget]
        rw [this]
        exact strHas_right _ (strHas_right _ (strHas_right _ (strHas_left _ (strHas_self _))))
    | false =>
        have : registerSuffix sp =
            "Register-ScheduledTask -TaskName $taskName -Description $description -Action $action -Trigger $trigger -User "
              ++ _quote_ps_arg u ++ " | Out-Null" := by
          simp [registerSuffix, htu, hp, hget]
        rw [this]
        exact strHas_right _ (strHas_left _ (strHas_self _))
  · intro u p hu hus hp hps
    have htu : truthyOpt sp.user = true := by simp [truthyOpt, hu, hus]
    have htp : truthyOpt sp.password = true := by simp [truthyOpt, hp, hps]
    have hget : sp.password.getD "" = p := by rw [hp]; rfl
    refine strHas_left (registerBase sp d w) ?_
    have hsuf : registerSuffix sp =
        "Register-ScheduledTask -TaskName $taskName -Description $description -Action $action -Trigger $trigger -User "
          ++ _quote_ps_arg (sp.user.getD "") ++ " -Password " ++ _quote_ps_arg p
          ++ " | Out-Null" := by
      simp [registerSuffix, htu, htp, hget]
    rw [hsuf]
    exact strHas_right _ (strHas_left _ (strHas_self _))
  · intro h1
    refine ⟨formatDate (match sp.on_ with | .onDate dd => dd | _ => d) ++ " " ++ atString sp, ?_⟩
    simp [_build_trigger, h1]
  · intro h2
    by_cases h1 : sp.frequency = "Once"
    · rw [h1] at h2
      exact absurd h2 (by decide)
    · simp [_build_trigger, h1, h2]
  · intro h1 h2
    simp [_build_trigger, h1, h2]

/-- Concrete spec exercising the amended C1: extra argument, credentials and
a `Once` trigger. -/
def c1Spec : PythonTask :=
  ⟨"nightly", "C:\\jobs\\a.py", "C:\\Python\\python.exe", ["x"], "Once",
   .raw "02:30", .noneF, "desc", some "bob", some "pw"⟩

/-- Witness for the amended C1 at a concrete spec. -/
theorem c1_quoting_amended_witness :
    strHas (_build_action c1Spec) (_quote_ps_arg "x") ∧
    strHas (_build_register c1Spec d0 "Tuesday") (_quote_ps_arg "bob") ∧
    strHas (_build_register c1Spec d0 "Tuesday") (_quote_ps_arg "pw") ∧
    (∃ dt, _build_trigger c1Spec d0 "Tuesday" =
      "$trigger = New-ScheduledTaskTrigger -Once -At (Get-Date " ++ _quote_ps_arg dt ++ ")") := by
  obtain ⟨h1, h2, h3, h4, h5, h6, h7, h8, h9, h10⟩ := c1_quoting_amended c1Spec d0 "Tuesday"
  exact ⟨h3 "x" (by simp [c1Spec]), h6 "bob" rfl (by decide),
    h7 "bob" "pw" rfl (by decide) rfl (by decide), h8 rfl⟩

/-- Concrete spec with the unrecognized frequency value `"Monthly"`. -/
def monthlySpec : PythonTask :=
  ⟨"t", "s", "p", [], "Monthly", .raw "09:15", .noneF, "d", none, none⟩

/-- C2 counterexample — for the unrecognized frequency `"Monthly"`, building
the trigger does not fail: it produces a complete `Daily` trigger fragment. -/
theorem c2_unrecognized_frequency_cex :
    monthlySpec.frequency ∉ (["Once", "Daily", "Weekly"] : List String) ∧
    _build_trigger monthlySpec d0 "Tuesday" =
      "$trigger = New-ScheduledTaskTrigger -Daily -At 09:15" := by
  exact ⟨by decide, rfl⟩

/-- C2 amended — a frequency other than `"Once"` and `"Weekly"` (hence any
unrecognized value) is silently routed to the catch-all `Daily` branch and
yields the `Daily` trigger fragment; no error is raised. -/
theorem c2_frequency_fallback (sp : PythonTask) (d : DateV) (w : String)
    (h1 : sp.frequency ≠ "Once") (h2 : sp.frequency ≠ "Weekly") :
    _build_trigger sp d w =
      "$trigger = New-ScheduledTaskTrigger -Daily -At " ++ atString sp := by
  simp [_build_trigger, h1, h2]

/-- Witness for the amended C2 at the `"Monthly"` spec. -/
theorem c2_frequency_fallback_witness :
    _build_trigger monthlySpec d0 "Tuesday" =
      "$trigger = New-ScheduledTaskTrigger -Daily -At " ++ atString monthlySpec :=
  c2_frequency_fallback monthlySpec d0 "Tuesday" (by decide) (by decide)

/-- C6 — Trigger-fragment frequency branches.  For `Once` with no date in
`on`, the fragment is the one obtained by supplying the current date; for
`Weekly` with `on` absent or the empty list, the fragment is the one obtained
by supplying the current weekday name; for `Daily`, the `on` field never
influences the output. -/
theorem c6_trigger_branches (sp : PythonTask) (d d2 : DateV) (w w2 : String) :
    (sp.frequency = "Once" → (∀ dd, sp.on_ ≠ .onDate dd) →
      _build_trigger sp d w = _build_trigger { sp with on_ := .onDate d } d2 w2) ∧
    (sp.frequency = "Weekly" → w ≠ "" → (sp.on_ = .noneF ∨ sp.on_ = .onDays []) →
      _build_trigger sp d w = _build_trigger { sp with on_ := .onDays [w] } d2 w2) ∧
    (sp.frequency = "Daily" → ∀ o1 o2,
      _build_trigger { sp with on_ := o1 } d w = _build_trigger { sp with on_ := o2 } d w) := by
  refine ⟨?_, ?_, ?_⟩
  · intro h1 hno
    cases ho : sp.on_ with
    | noneF => simp [_build_trigger, h1, atString, ho]
    | onDate dd => exact absurd ho (hno dd)
    | onDays ds => simp [_build_trigger, h1, atString, ho]
  · intro h2 hw hon
    have hjoin1 : joinWith "," [w] = w := rfl
    rcases hon with ho | ho <;>
      simp [_build_trigger, h2, atString, weeklyDaysValue, ho, hjoin1, hw,
        String.isEmpty_iff]
  · intro h3 o1 o2
    simp [_build_trigger, h3, atString]

/-- Concrete specs for the C6 witness. -/
def c6OnceSpec : PythonTask :=
  ⟨"t", "s", "p", [], "Once", .tod ⟨2, 30⟩, .noneF, "d", none, none⟩

def c6WeeklySpec : PythonTask :=
  ⟨"t", "s", "p", [], "Weekly", .tod ⟨2, 30⟩, .noneF, "d", none, none⟩

def c6DailySpec : PythonTask :=
  ⟨"t", "s", "p", [], "Daily", .tod ⟨2, 30⟩, .noneF, "d", none, none⟩

/-- Witness for C6 at concrete specs. -/
theorem c6_trigger_branches_witness :
    _build_trigger c6OnceSpec d0 "Tuesday"
      = _build_trigger { c6OnceSpec with on_ := .onDate d0 } ⟨2030, 1, 2⟩ "Friday" ∧
    _build_trigger c6WeeklySpec d0 "Tuesday"
      = _build_trigger { c6WeeklySpec with on_ := .onDays ["Tuesday"] } ⟨2030, 1, 2⟩ "Friday" ∧
    _build_trigger { c6DailySpec with on_ := .onDate d0 } d0 "Tuesday"
      = _build_trigger { c6DailySpec with on_ := .onDays ["Monday", "Friday"] } d0 "Tuesday" := by
  refine ⟨?_, ?_, ?_⟩
  · exact (c6_trigger_branches c6OnceSpec d0 ⟨2030, 1, 2⟩ "Tuesday" "Friday").1 rfl
      (fun dd h => by cases h)
  · exact (c6_trigger_branches c6WeeklySpec d0 ⟨2030, 1, 2⟩ "Tuesday" "Friday").2.1 rfl
      (by decide) (Or.inl rfl)
  · exact (c6_trigger_branches c6DailySpec d0 d0 "Tuesday" "Tuesday").2.2 rfl
      (.onDate d0) (.onDays ["Monday", "Friday"])

/-- C8 — The registration fragment's credential branch is three-way: both
user and password when both are truthy, the quoted user alone when only the
user is truthy, and no credentials at all otherwise — in particular a
password without a user adds nothing, so the fragment then equals the one
built with no password. -/
theorem c8_credential_branch (sp : PythonTask) (d : DateV) (w : String) :
    (truthyOpt sp.user = true → truthyOpt sp.password = true →
      _build_register sp d w = registerBase sp d w
        ++ ("Register-ScheduledTask -TaskName $taskName -Description $description -Action $action -Trigger $trigger -User "
            ++ _quote_ps_arg (sp.user.getD "") ++ " -Password "
            ++ _quote_ps_arg (sp.password.getD "") ++ " | Out-Null")) ∧
    (truthyOpt sp.user = true → truthyOpt sp.password = false →
      _build_register sp d w = registerBase sp d w
        ++ ("Register-ScheduledTask -TaskName $taskName -Description $description -Action $action -Trigger $trigger -User "
            ++ _quote_ps_arg (sp.user.getD "") ++ " | Out-Null")) ∧
    (truthyOpt sp.user = false →
      _build_register sp d w = registerBase sp d w
        ++ "Register-ScheduledTask -TaskName $taskName -Description $description -Action $action -Trigger $trigger | Out-Null") ∧
    (truthyOpt sp.user = false →
      _build_register sp d w = _build_register { sp with password := none } d w) := by
  refine ⟨?_, ?_, ?_, ?_⟩
  · intro hu hp
    simp [_build_register, registerSuffix, hu, hp, strAppend_assoc]
  · intro hu hp
    simp [_build_register, registerSuffix, hu, hp, strAppend_assoc]
  · intro hu
    simp [_build_register, registerSuffix, hu]
  · intro hu
    simp [_build_register, registerSuffix, registerBase, _build_trigger, _build_action,
      atString, weeklyDaysValue, hu]

/-- Witness for C8 at concrete credential combinations. -/
theorem c8_credential_branch_witness :
    _build_register ⟨"t", "s", "p", [], "Daily", .raw "09:15", .noneF, "d", some "bob", some "pw"⟩ d0 "Tuesday"
      = registerBase ⟨"t", "s", "p", [], "Daily", .raw "09:15", .noneF, "d", some "bob", some "pw"⟩ d0 "Tuesday"
        ++ ("Register-ScheduledTask -TaskName $taskName -Description $description -Action $action -Trigger $trigger -User "
            ++ _quote_ps_arg "bob" ++ " -Password " ++ _quote_ps_arg "pw" ++ " | Out-Null") ∧
    _build_register ⟨"t", "s", "p", [], "Daily", .raw "09:15", .noneF, "d", none, some "pw"⟩ d0 "Tuesday"
      = _build_register ⟨"t", "s", "p", [], "Daily", .raw "09:15", .noneF, "d", none, none⟩ d0 "Tuesday" := by
  constructor
  · exact (c8_credential_branch _ d0 "Tuesday").1 (by decide) (by decide)
  · exact (c8_credential_branch ⟨"t", "s", "p", [], "Daily", .raw "09:15", .noneF, "d", none, some "pw"⟩ d0 "Tuesday").2.2.2 (by decide)

/-- One external PowerShell invocation issued by a task operation, abstracted
to the scheduler command it renders (each embeds the quoted task name, per
the single-purpose builders in `core.py`). -/
inductive Cmd where
  | queryExists (name : String)
  | register (name : String)
  | unregister (name : String)
  | start (name : String)
  | enableCmd (name : String)
  | disableCmd (name : String)
  | stopCmd (name : String)
deriving DecidableEq

/-- Presence map of the host scheduler's task database. -/
def Sched := String → Bool

/-- Result of one external invocation: the process exit code (matching
`subprocess.CompletedProcess.returncode`) and the host state afterwards. -/
structure ExecOut where
  code : Int
  sched : Sched

/-- A host behaviour: what executing one command against a given host state
returns.  Kept abstract so that invocation failures of any kind are covered. -/
def Host := Sched → Cmd → ExecOut

/-- The ideal host of the spec's mutation state machine (section 4.2):
existence queries exit 0 exactly when the task is present, registration adds
the task, unregistration removes it, and the act-on-existing commands exit 0
exactly when the task is present. -/
def idealHost : Host := fun s c =>
  match c with
  | .queryExists n => ⟨if s n then 0 else 1, s⟩
  | .register n => ⟨0, fun m => if m = n then true else s m⟩
  | .unregister n => ⟨if s n then 0 else 1, fun m => if m = n then false else s m⟩
  | .start n => ⟨if s n then 0 else 1, s⟩
  | .enableCmd n => ⟨if s n then 0 else 1, s⟩
  | .disableCmd n => ⟨if s n then 0 else 1, s⟩
  | .stopCmd n => ⟨if s n then 0 else 1, s⟩

/-- The error taxonomy of `core.py` lines 13-22: the two dedicated classes
and the generic `TaskError` raised on non-zero exit codes. -/
inductive TaskErr where
  | alreadyExists
  | notFound
  | taskError
deriving DecidableEq

/-- Embedding of `PythonTask.exists` (`core.py` lines 153-159): issue the
existence query and report whether its exit code is 0.  The result triple is
(boolean result, trace of issued invocations, host state afterwards). -/
def existsTask (h : Host) (name : String) (s : Sched) : Bool × List Cmd × Sched :=
  let r := h s (.queryExists name)
  (r.code == 0, [.queryExists name], r.sched)

/-- Embedding of `PythonTask.run` (`core.py` lines 184-192): fresh existence
check, `TaskNotFoundError` when absent, otherwise start and fail generically
on non-zero exit. -/
def runTask (h : Host) (sp : PythonTask) (s : Sched) :
    Except TaskErr Unit × List Cmd × Sched :=
  let q := existsTask h sp.name s
  if q.1 then
    let r := h q.2.2 (.start sp.name)
    ((if r.code == 0 then .ok () else .error .taskError),
      q.2.1 ++ [.start sp.name], r.sched)
  else
    (.error .notFound, q.2.1, q.2.2)

/-- Embedding of `PythonTask.enable` (`core.py` lines 194-200): no existence
check; issue the enable command and fail generically on non-zero exit. -/
def enableTask (h : Host) (sp : PythonTask) (s : Sched) :
    Except TaskErr Unit × List Cmd × Sched :=
  let r := h s (.enableCmd sp.name)
  ((if r.code == 0 then .ok () else .error .taskError), [.enableCmd sp.name], r.sched)

/-- Embedding of `PythonTask.disable` (`core.py` lines 202-208). -/
def disableTask (h : Host) (sp : PythonTask) (s : Sched) :
    Except TaskErr Unit × List Cmd × Sched :=
  let r := h s (.disableCmd sp.name)
  ((if r.code == 0 then .ok () else .error .taskError), [.disableCmd sp.name], r.sched)

/-- Embedding of `PythonTask.stop` (`core.py` lines 210-216). -/
def stopTask (h : Host) (sp : PythonTask) (s : Sched) :
    Except TaskErr Unit × List Cmd × Sched :=
  let r := h s (.stopCmd sp.name)
  ((if r.code == 0 then .ok () else .error .taskError), [.stopCmd sp.name], r.sched)

/-- Embedding of `PythonTask.delete` (`core.py` lines 174-182): fresh
existence check, `TaskNotFoundError` when absent, otherwise unregister. -/
def deleteTask (h : Host) (sp : PythonTask) (s : Sched) :
    Except TaskErr Unit × List Cmd × Sched :=
  let q := existsTask h sp.name s
  if q.1 then
    let r := h q.2.2 (.unregister sp.name)
    ((if r.code == 0 then .ok () else .error .taskError),
      q.2.1 ++ [.unregister sp.name], r.sched)
  else
    (.error .notFound, q.2.1, q.2.2)

/-- Embedding of `PythonTask.create` (`core.py` lines 161-172): fresh
existence check; when present, raise `TaskAlreadyExistsError` unless
`overwrite`, in which case delete first (propagating its errors); then
register. -/
def createTask (h : Host) (sp : PythonTask) (overwrite : Bool) (s : Sched) :
    Except TaskErr Unit × List Cmd × Sched :=
  let q := existsTask h sp.name s
  if q.1 then
    if overwrite then
      match deleteTask h sp q.2.2 with
      | (.error e, t2, s2) => (.error e, q.2.1 ++ t2, s2)
      | (.ok _, t2, s2) =>
          let r := h s2 (.register sp.name)
          ((if r.code == 0 then .ok () else .error .taskError),
            q.2.1 ++ t2 ++ [.register sp.name], r.sched)
    else
      (.error .alreadyExists, q.2.1, q.2.2)
  else
    let r := h q.2.2 (.register sp.name)
    ((if r.code == 0 then .ok () else .error .taskError),
      q.2.1 ++ [.register sp.name], r.sched)

/-- C3 counterexample — on an absent task, `enable` does not fail with
`TaskNotFoundError`: it issues no existence query (its trace is just the
enable command) and surfaces the generic `TaskError`. -/
theorem c3_enable_no_notfound_cex :
    (enableTask idealHost ⟨"t", "s", "p", [], "Daily", .raw "09:15", .noneF, "d", none, none⟩
        (fun _ => false)).1 = .error .taskError ∧
    (.error .taskError : Except TaskErr Unit) ≠ .error .notFound ∧
    (enableTask idealHost ⟨"t", "s", "p", [], "Daily", .raw "09:15", .noneF, "d", none, none⟩
        (fun _ => false)).2.1 = [.enableCmd "t"] ∧
    Cmd.queryExists "t" ∉
      (enableTask idealHost ⟨"t", "s", "p", [], "Daily", .raw "09:15", .noneF, "d", none, none⟩
        (fun _ => false)).2.1 := by
  refine ⟨rfl, ?_, rfl, by decide⟩
  intro hcon
  cases hcon

/-- C3 amended — `run` (like `delete`) issues a fresh existence query
immediately before acting and fails with `TaskNotFoundError` on an absent
task; `enable`, `disable` and `stop` issue no existence query at all and,
when the underlying invocation fails on an absent task, fail with the
generic `TaskError` instead. -/
theorem c3_presence_checks (sp : PythonTask) (s : Sched) (habs : s sp.name = false) :
    runTask idealHost sp s = (.error .notFound, [.queryExists sp.name], s) ∧
    deleteTask idealHost sp s = (.error .notFound, [.queryExists sp.name], s) ∧
    enableTask idealHost sp s = (.error .taskError, [.enableCmd sp.name], s) ∧
    disableTask idealHost sp s = (.error .taskError, [.disableCmd sp.name], s) ∧
    stopTask idealHost sp s = (.error .taskError, [.stopCmd sp.name], s) := by
  refine ⟨?_, ?_, ?_, ?_, ?_⟩ <;>
    simp [runTask, deleteTask, enableTask, disableTask, stopTask, existsTask, idealHost, habs]

/-- Witness for the amended C3 on an empty scheduler. -/
theorem c3_presence_checks_witness :
    runTask idealHost ⟨"t", "s", "p", [], "Daily", .raw "09:15", .noneF, "d", none, none⟩
        (fun _ => false)
      = (.error .notFound, [.queryExists "t"], fun _ => false) ∧
    stopTask idealHost ⟨"t", "s", "p", [], "Daily", .raw "09:15", .noneF, "d", none, none⟩
        (fun _ => false)
      = (.error .taskError, [.stopCmd "t"], fun _ => false) := by
  obtain ⟨h1, h2, h3, h4, h5⟩ :=
    c3_presence_checks ⟨"t", "s", "p", [], "Daily", .raw "09:15", .noneF, "d", none, none⟩
      (fun _ => false) rfl
  exact ⟨h1, h5⟩

/-- C4 — Overwrite semantics of `create` on an existing task, against the
ideal host: with `overwrite = false` it fails with `TaskAlreadyExistsError`
after only the existence query, leaving the host state untouched; with
`overwrite = true` it succeeds with a trace of exactly one unregister
followed by exactly one register (each preceded by its fresh existence
query), and the task is present afterwards. -/
theorem c4_overwrite_semantics (sp : PythonTask) (s : Sched) (hp : s sp.name = true) :
    createTask idealHost sp false s = (.error .alreadyExists, [.queryExists sp.name], s) ∧
    (createTask idealHost sp true s).1 = .ok () ∧
    (createTask idealHost sp true s).2.1 =
      [.queryExists sp.name, .queryExists sp.name, .unregister sp.name, .register sp.name] ∧
    ((createTask idealHost sp true s).2.1.count (.unregister sp.name) = 1 ∧
     (createTask idealHost sp true s).2.1.count (.register sp.name) = 1) ∧
    (createTask idealHost sp true s).2.2 sp.name = true := by
  have hrun : createTask idealHost sp true s =
      (.ok (), [.queryExists sp.name, .queryExists sp.name, .unregister sp.name,
                .register sp.name],
        fun m => if m = sp.name then true else
          (fun m2 => if m2 = sp.name then false else s m2) m) := by
    simp [createTask, deleteTask, existsTask, idealHost, hp]
  refine ⟨?_, ?_, ?_, ?_, ?_⟩
  · simp [createTask, existsTask, idealHost, hp]
  · rw [hrun]
  · rw [hrun]
  · rw [hrun]
    simp [List.count_cons]
  · rw [hrun]
    simp

/-- Witness for C4 on a scheduler holding the task. -/
theorem c4_overwrite_semantics_witness :
    createTask idealHost ⟨"t", "s", "p", [], "Daily", .raw "09:15", .noneF, "d", none, none⟩
        false (fun n => n == "t")
      = (.error .alreadyExists, [.queryExists "t"], fun n => n == "t") ∧
    (createTask idealHost ⟨"t", "s", "p", [], "Daily", .raw "09:15", .noneF, "d", none, none⟩
        true (fun n => n == "t")).1 = .ok () ∧
    (createTask idealHost ⟨"t", "s", "p", [], "Daily", .raw "09:15", .noneF, "d", none, none⟩
        true (fun n => n == "t")).2.2 "t" = true := by
  obtain ⟨h1, h2, h3, h4, h5⟩ :=
    c4_overwrite_semantics ⟨"t", "s", "p", [], "Daily", .raw "09:15", .noneF, "d", none, none⟩
      (fun n => n == "t") rfl
  exact ⟨h1, h2, h5⟩

/-- C10 — `exists` is total over every host behaviour: it returns a boolean
that is true exactly when the invocation's exit code is 0, so any failure of
the invocation itself (any non-zero exit code, for any reason) is reported
as `false`, indistinguishable from task absence. -/
theorem c10_exists_total (h : Host) (name : String) (s : Sched) :
    ((existsTask h name s).1 = true ↔ (h s (.queryExists name)).code = 0) ∧
    ((h s (.queryExists name)).code ≠ 0 → (existsTask h name s).1 = false) := by
  constructor
  · simp [existsTask]
  · intro hc
    simp [existsTask, hc]

/-- Witness for C10 on a host whose existence invocation itself fails with
exit code 255: `exists` reports `false`, exactly as for an absent task. -/
theorem c10_exists_total_witness :
    (existsTask (fun s _ => ⟨255, s⟩) "t" (fun _ => false)).1 = false ∧
    (existsTask idealHost "t" (fun _ => false)).1 = false :=
  ⟨(c10_exists_total (fun s _ => ⟨255, s⟩) "t" (fun _ => false)).2 (by decide),
   (c10_exists_total idealHost "t" (fun _ => false)).2 (by decide)⟩

/-- A status or last-run-result value as it arrives from the parsed
enumeration payload: a JSON number (integer) or a string. -/
inductive PsVal where
  | i (n : Int)
  | s (str : String)
deriving DecidableEq

/-- Python's `str(...)` on such a value. -/
def pyStr : PsVal → String
  | .i n => toString n
  | .s str => str

/-- Python's `str.isdigit` restricted to the ASCII digits that scheduler
output contains: non-empty and all characters `0`-`9`. -/
def isPyDigits (s : String) : Bool :=
  !s.data.isEmpty && s.data.all (·.isDigit)

/-- Decimal value of an ASCII digit string, Python's `int(s)` on the inputs
accepted by `isPyDigits`. -/
def digitsToNat (l : List Char) : Nat :=
  l.foldl (fun a c => a * 10 + (c.toNat - 48)) 0

def strToInt (s : String) : Int :=
  (digitsToNat s.data : Int)

/-- The five rendered status labels of `map_status` (`core.py` lines
319-330), byte-for-byte as the source file encodes them. -/
def lblReady : String := "\u00F0\u0178\u0178\u00A2 Ready"

def lblRunning : String := "\u00E2\u2013\u00B6\u00EF\u00B8 Running"

def lblDisabled : String := "\u00F0\u0178\u0178\u00A1 Disabled"

def lblQueued : String := "\u00E2\u00B3 Queued"

def lblUnknown : String := "\u00E2\u201C Unknown"

def statusLabels : List String :=
  [lblReady, lblRunning, lblDisabled, lblQueued, lblUnknown]

/-- The numeric-as-string normalisation of `map_status` (`core.py` lines
332-338): a digit string becomes its integer value, everything else is kept. -/
def statusNorm : PsVal → PsVal
  | .s str => if isPyDigits str then .i (strToInt str) else .s str
  | .i n => .i n

/-- The fixed `mapping` lookup of `map_status` (`core.py` lines 319-330). -/
def statusLookup : PsVal → Option String
  | .s str =>
      if str = "Ready" then some lblReady
      else if str = "Running" then some lblRunning
      else if str = "Disabled" then some lblDisabled
      else if str = "Queued" then some lblQueued
      else if str = "Unknown" then some lblUnknown
      else none
  | .i n =>
      if n = 0 then some lblUnknown
      else if n = 1 then some lblDisabled
      else if n = 2 then some lblQueued
      else if n = 3 then some lblReady
      else if n = 4 then some lblRunning
      else none

/-- Embedding of `map_status` (`core.py` lines 316-339):
`mapping.get(s_val, str(s))` — look the normalised value up, defaulting to
the string form of the original input. -/
def map_status (v : PsVal) : String :=
  (statusLookup (statusNorm v)).getD (pyStr v)

/-- The `known` last-run-result code table of `map_result`
(`core.py` lines 343-351). -/
def resultLookup (n : Int) : Option String :=
  if n = 0 then some "Succeeded"
  else if n = 267009 then some "Running"
  else if n = 267008 then some "Queued"
  else if n = 267011 then some "Not executed yet"
  else if n = 267002 then some "Disabled"
  else if n = 267010 then some "Ready"
  else if n = 267000 then some "No more runs"
  else none

def knownResultCodes : List Int :=
  [0, 267009, 267008, 267011, 267002, 267010, 267000]

/-- Embedding of `map_result` (`core.py` lines 341-361): digit strings and
integers go through the known-code table with `"Code <n>"` as default; every
other value is returned as `str(code)`. -/
def map_result : PsVal → String
  | .s str =>
      if isPyDigits str then (resultLookup (strToInt str)).getD ("Code " ++ toString (strToInt str))
      else str
  | .i n => (resultLookup n).getD ("Code " ++ toString n)

def canonicalStatusStrings : List String :=
  ["Ready", "Running", "Disabled", "Queued", "Unknown"]

/-- C7 — Status/result normalization is total: integers 0-4 and digit
strings of value at most 4 and the five canonical status strings all map to
one of the five defined labels; every other status value passes through as
its original string form; every numeric last-run-result outside the known
table renders as `"Code <n>"`, and non-numeric result values pass through
verbatim. -/
theorem c7_normalization_total :
    (∀ n : Int, 0 ≤ n → n ≤ 4 → map_status (.i n) ∈ statusLabels) ∧
    (∀ s : String, isPyDigits s = true → strToInt s ≤ 4 → map_status (.s s) ∈ statusLabels) ∧
    (∀ s : String, s ∈ canonicalStatusStrings → map_status (.s s) ∈ statusLabels) ∧
    (∀ n : Int, n < 0 ∨ 4 < n → map_status (.i n) = toString n) ∧
    (∀ s : String, isPyDigits s = true → 4 < strToInt s → map_status (.s s) = s) ∧
    (∀ s : String, isPyDigits s = false → s ∉ canonicalStatusStrings → map_status (.s s) = s) ∧
    (∀ n : Int, n ∉ knownResultCodes → map_result (.i n) = "Code " ++ toString n) ∧
    (∀ s : String, isPyDigits s = true → strToInt s ∉ knownResultCodes →
      map_result (.s s) = "Code " ++ toString (strToInt s)) ∧
    (∀ s : String, isPyDigits s = false → map_result (.s s) = s) := by
  have hres : ∀ n : Int, n ∉ knownResultCodes → resultLookup n = none := by
    intro n hn
    simp [knownResultCodes] at hn
    obtain ⟨e1, e2, e3, e4, e5, e6, e7⟩ := hn
    simp [resultLookup, e1, e2, e3, e4, e5, e6, e7]
  refine ⟨?_, ?_, ?_, ?_, ?_, ?_, ?_, ?_, ?_⟩
  · intro n h0 h4
    interval_cases n <;> decide
  · intro s hd hle
    have h0 : 0 ≤ strToInt s := Int.natCast_nonneg _
    have hm : map_status (.s s) = (statusLookup (.i (strToInt s))).getD s := by
      simp [map_status, statusNorm, hd, pyStr]
    rw [hm]
    generalize hk : strToInt s = k at h0 hle
    interval_cases k <;> simp [statusLookup, statusLabels]
  · intro s hs
    fin_cases hs <;> decide
  · intro n hn
    have e0 : n ≠ 0 := by omega
    have e1 : n ≠ 1 := by omega
    have e2 : n ≠ 2 := by omega
    have e3 : n ≠ 3 := by omega
    have e4 : n ≠ 4 := by omega
    simp [map_status, statusNorm, statusLookup, pyStr, e0, e1, e2, e3, e4]
  · intro s hd hgt
    have e0 : strToInt s ≠ 0 := by omega
    have e1 : strToInt s ≠ 1 := by omega
    have e2 : strToInt s ≠ 2 := by omega
    have e3 : strToInt s ≠ 3 := by omega
    have e4 : strToInt s ≠ 4 := by omega
    simp [map_status, statusNorm, statusLookup, pyStr, hd, e0, e1, e2, e3, e4]
  · intro s hd hnc
    simp [canonicalStatusStrings] at hnc
    obtain ⟨ne1, ne2, ne3, ne4, ne5⟩ := hnc
    simp [map_status, statusNorm, statusLookup, pyStr, hd, ne1, ne2, ne3, ne4, ne5]
  · intro n hn
    simp [map_result, hres n hn]
  · intro s hd hn
    simp [map_result, hd, hres _ hn]
  · intro s hd
    simp [map_result, hd]

/-- Witness for C7 at concrete status and result inputs. -/
theorem c7_normalization_total_witness :
    map_status (.i 3) ∈ statusLabels ∧
    map_status (.s "4") ∈ statusLabels ∧
    map_status (.s "Queued") ∈ statusLabels ∧
    map_status (.i 9) = "9" ∧
    map_status (.s "Paused") = "Paused" ∧
    map_result (.i 5) = "Code 5" ∧
    map_result (.s "267777") = "Code 267777" ∧
    map_result (.s "oops") = "oops" := by
  obtain ⟨p1, p2, p3, p4, p5, p6, p7, p8, p9⟩ := c7_normalization_total
  refine ⟨p1 3 (by decide) (by decide), p2 "4" (by decide) (by decide),
    p3 "Queued" (by decide), p4 9 (by decide), p6 "Paused" (by decide) (by decide),
    p7 5 (by decide), p8 "267777" (by decide) (by decide), p9 "oops" (by decide)⟩

/-- One entry of a task record's `Actions` list in the enumeration payload,
already string-coerced as `_is_python_action` does with
`str((act or \x7b\x7d).get("Command") or "")`. -/
structure ActionRecord where
  Command : String
  Arguments : String
deriving DecidableEq

/-- The fields of a parsed task record that the listing filters consult. -/
structure TaskItem where
  Name : String
  Author : String
  Actions : List ActionRecord
deriving DecidableEq

/-- ASCII lowering, Python's `str.lower` on the ASCII domain of command
lines. -/
def lowerStr (s : String) : String :=
  String.mk (s.data.map Char.toLower)

/-- Python's `str.endswith` on character lists. -/
def strEndsWith (s suf : String) : Bool :=
  suf.data.isSuffixOf s.data

/-- Contiguous-substring test, Python's `needle in hay`. -/
def segB (needle : List Char) : List Char → Bool
  | [] => needle.isEmpty
  | c :: rest => needle.isPrefixOf (c :: rest) || segB needle rest

def strContainsB (hay needle : String) : Bool :=
  segB needle.data hay.data

/-- Embedding of `_is_python_action` (`core.py` lines 363-372): the lowered
command ends in `python.exe`, or contains a `\python` or `/python` path
segment, or the lowered arguments end in `.py` or contain `.py `. -/
def _is_python_action (act : ActionRecord) : Bool :=
  strEndsWith (lowerStr act.Command) "python.exe"
    || strContainsB (lowerStr act.Command) "\\python"
    || strContainsB (lowerStr act.Command) "/python"
    || strEndsWith (lowerStr act.Arguments) ".py"
    || strContainsB (lowerStr act.Arguments) ".py "

/-- Embedding of `_passes_filters` (`core.py` lines 374-383): author
exact-match (case-insensitive), name substring (case-insensitive), then the
only-Python heuristic over the record's actions. -/
def _passes_filters (only_python : Bool) (author name_contains : Option String)
    (it : TaskItem) : Bool :=
  if truthyOpt author && !(lowerStr it.Author == lowerStr (author.getD "")) then false
  else if truthyOpt name_contains
      && !(strContainsB (lowerStr it.Name) (lowerStr (name_contains.getD ""))) then false
  else if only_python && !(it.Actions.any _is_python_action) then false
  else true

/-- C9 — With the only-Python filter active (and no author or name filter), a
task record passes exactly when at least one of its actions satisfies the
Python heuristic; a record whose only action is `run.exe` under a non-Python
command is excluded, and a single matching action among several qualifies the
whole task. -/
theorem c9_python_filter :
    (∀ it : TaskItem, _passes_filters true none none it = it.Actions.any _is_python_action) ∧
    (∀ it : TaskItem, _passes_filters true none none it = true ↔
      ∃ a ∈ it.Actions, _is_python_action a = true) ∧
    _passes_filters true none none ⟨"T", "", [⟨"C:\\tools\\run.exe", "run.exe"⟩]⟩ = false ∧
    _passes_filters true none none
      ⟨"T", "", [⟨"C:\\tools\\run.exe", "run.exe"⟩,
                 ⟨"C:\\Python\\python.exe", "job.py --x 1"⟩]⟩ = true := by
  have hmain : ∀ it : TaskItem,
      _passes_filters true none none it = it.Actions.any _is_python_action := by
    intro it
    cases h : it.Actions.any _is_python_action <;>
      simp [_passes_filters, truthyOpt, h]
  refine ⟨hmain, ?_, ?_, ?_⟩
  · intro it
    rw [hmain it]
    exact List.any_eq_true
  · rw [hmain]
    decide
  · rw [hmain]
    decide

/-- Witness for C9: the record whose second action launches a Python script
passes the only-Python filter through the iff, via that single action. -/
theorem c9_python_filter_witness :
    _passes_filters true none none
      ⟨"T", "", [⟨"C:\\tools\\run.exe", "run.exe"⟩,
                 ⟨"C:\\Python\\python.exe", "job.py --x 1"⟩]⟩ = true :=
  (c9_python_filter.2.1 _).mpr
    ⟨⟨"C:\\Python\\python.exe", "job.py --x 1"⟩, by decide, by decide⟩

end TaskSched
